import Mathlib

/-!
Verification of the HTTP/1.1 server core (TypeScript/JavaScript sources).

The development shallowly embeds the byte-stream protocol engine:

* `DynBuf`, `bufPop`, `bufpush` — the growable receive buffer
  (`buffer-utils`); `bufPop` is modelled with JavaScript `copyWithin`
  semantics, and the logical length is an `Int` because the source never
  guards against over-consumption.
* `splitLines`, `parseRequestLine`, `validateHeader`, `parseHTTPReq`
  (the `http-parser.ts` variant) and `parseHTTPReqDist` (the compiled
  `dist/buffer-utils.js` variant), `cutMessage` — scanner and parser.
* `fieldGet`, `parseDec`, `readerFromReq` — body-reader selection.
* `soRead`, `connLengthRead`, `memoryRead` — the pull-based body readers,
  with the transport modelled as the list of chunks successive reads
  would deliver (an empty chunk signals end of stream).
* `encodeHTTPResp`, `writeHTTPResp` — response serialisation.

JavaScript strings are represented as lists of code points (`List Nat`);
buffers are lists of bytes.  The Node `buffer.toString("ascii")` masks every
byte to 7 bits, which `toCodes` reproduces.
-/

/-- Structured error carrying an HTTP status code, mirroring `HTTPError`
(`http-error.js`): a status and a message (kept as a code-point list). -/
structure HTTPError where
  status : Nat
  message : List Nat
deriving DecidableEq

/-- Code points of a Lean string literal.  Used to write the JavaScript
string constants of the source and concrete ASCII inputs as byte lists. -/
def codes (s : String) : List Nat :=
  s.data.map Char.toNat

/-- Node `buffer.toString("ascii")` masks every byte to 7 bits before it
becomes a character of the resulting string. -/
def toCodes (l : List Nat) : List Nat :=
  l.map (fun b => b % 128)

/-- The dynamic buffer of `buffer-utils`: the backing byte array plus the
logical length.  The length is an `Int`: the source decrements it without
any bounds check, so it can become negative. -/
structure DynBuf where
  data : List Nat
  length : Int
deriving DecidableEq

/-- A well-formed buffer state: the logical length is between `0` and the
size of the backing array (every state the server itself constructs). -/
def DynBuf.wf (b : DynBuf) : Prop :=
  0 ≤ b.length ∧ b.length ≤ (b.data.length : Int)

instance (b : DynBuf) : Decidable b.wf := by
  unfold DynBuf.wf; infer_instance

/-- The bytes the buffer currently holds: the prefix of the backing array
of logical length (`buf.data.subarray(0, buf.length)`). -/
def validRegion (b : DynBuf) : List Nat :=
  b.data.take b.length.toNat

/-- JavaScript `array.copyWithin(0, src, stop)`: the slice `[src, stop)` is
copied to offset `0`; the array keeps its size, bytes past the copied
segment are untouched. -/
def copyWithinZero (l : List Nat) (src stop : Nat) : List Nat :=
  let seg := (l.take stop).drop src
  seg ++ l.drop seg.length

/-- `bufPop` from `buffer-utils`:
`buf.data.copyWithin(0, len, buf.length); buf.length -= len;` —
no check that `len` is within the logical length. -/
def bufPop (b : DynBuf) (len : Nat) : DynBuf :=
  { data := copyWithinZero b.data len b.length.toNat
    length := b.length - len }

/-- `bufpush` from `buffer-utils`:
`buf.data = Buffer.concat([buf.data, data]); buf.length = buf.data.length;`
— note that it concatenates onto the whole backing array and resets the
logical length to the full physical size. -/
def bufpush (b : DynBuf) (d : List Nat) : DynBuf :=
  { data := b.data ++ d
    length := ((b.data.length + d.length : Nat) : Int) }

/-- Index of the first occurrence of the header terminator CR LF CR LF
(`buf.data.subarray(0, buf.length).indexOf("\r\n\r\n")` in `cutMessage`);
`none` plays the role of the `-1` result. -/
def findTerm : List Nat → Option Nat
  | [] => none
  | b :: rest =>
    if b = 13 then
      match rest with
      | 10 :: 13 :: 10 :: _ => some 0
      | _ => (findTerm rest).map (· + 1)
    else (findTerm rest).map (· + 1)

/-- Line splitter of `buffer-utils.splitLines`, restated structurally: the
first argument accumulates the bytes of the current line in reverse.  A
LF ends a line; a CR immediately before the LF is dropped; a final
unterminated line is kept, an empty tail after the last LF is not. -/
def splitLinesGo (cur : List Nat) : List Nat → List (List Nat)
  | [] => if cur = [] then [] else [cur.reverse]
  | b :: rest =>
    if b = 10 then
      (match cur with
       | 13 :: cur2 => cur2.reverse
       | _ => cur.reverse) :: splitLinesGo [] rest
    else splitLinesGo (b :: cur) rest

/-- `splitLines(data)`: split a header block into lines at LF, trimming an
optional CR before each LF. -/
def splitLines (data : List Nat) : List (List Nat) :=
  splitLinesGo [] data

/-- JavaScript `string.split(" ")` (single-space separator, empty pieces
kept, `"" → [""]`). -/
def splitSp : List Nat → List (List Nat)
  | [] => [[]]
  | c :: rest =>
    let r := splitSp rest
    if c = 32 then [] :: r
    else
      match r with
      | h :: t => (c :: h) :: t
      | [] => [[c]]

/-- One-or-more decimal digits, matching the `\d` character class. -/
def isDigitCode (c : Nat) : Bool :=
  Nat.ble 48 c && Nat.ble c 57

/-- Tail of the version token after `HTTP/`: matches `\d+\.\d+`. -/
def digitsDotDigits (cs : List Nat) : Bool :=
  let ds := cs.takeWhile isDigitCode
  match cs.dropWhile isDigitCode with
  | 46 :: r2 => !ds.isEmpty && !r2.isEmpty && r2.all isDigitCode
  | _ => false

/-- The regular expression test of `parseRequestLine`:
`^HTTP\/\d+\.\d+$`. -/
def versionOk (v : List Nat) : Bool :=
  match v with
  | 72 :: 84 :: 84 :: 80 :: 47 :: rest => digitsDotDigits rest
  | _ => false

/-- `uri.startsWith("/")`. -/
def uriStartsSlash (u : List Nat) : Bool :=
  match u with
  | 47 :: _ => true
  | _ => false

/-- The fixed method set of `parseRequestLine`. -/
def validMethods : List (List Nat) :=
  [codes "GET", codes "POST", codes "PUT", codes "DELETE",
   codes "HEAD", codes "OPTIONS", codes "PATCH", codes "TRACE"]

/-- `parseRequestLine` (identical in `http-parser.ts` and in the compiled
`dist` module): ascii-decode the line, split on single spaces, demand
exactly three parts, reject empty parts, then check method, target and
version in order.  The successful result keeps the three tokens; the
target is re-encoded as an ascii buffer byte-for-byte. -/
def parseRequestLine (line : List Nat) :
    Except HTTPError (List Nat × List Nat × List Nat) :=
  match splitSp (toCodes line) with
  | [m, u, v] =>
    if m = [] ∨ u = [] ∨ v = [] then
      .error ⟨400, codes "Missing request line components"⟩
    else if m ∉ validMethods then
      .error ⟨405, codes "Method Not Allowed: " ++ m⟩
    else if ¬ uriStartsSlash u = true then
      .error ⟨400, codes "Invalid URI format"⟩
    else if ¬ versionOk v = true then
      .error ⟨400, codes "Invalid HTTP version"⟩
    else .ok (m, u, v)
  | _ => .error ⟨400, codes "Bad Request: Invalid request line format"⟩

/-- JavaScript `string.trim()` whitespace for the characters that can occur
in a Latin-1 decoded header line (tab, LF, VT, FF, CR, space, NBSP). -/
def isWsCode (c : Nat) : Bool :=
  c == 9 || c == 10 || c == 11 || c == 12 || c == 13 || c == 32 || c == 160

/-- `string.trim()`: drop whitespace from both ends. -/
def trimCodes (cs : List Nat) : List Nat :=
  ((cs.dropWhile isWsCode).reverse.dropWhile isWsCode).reverse

/-- `string.toLowerCase()` on a Latin-1 code point (ASCII letters and the
Latin-1 uppercase range other than the multiplication sign map down by
32; other relevant code points are fixed). -/
def lowerCode (c : Nat) : Nat :=
  if 65 ≤ c ∧ c ≤ 90 then c + 32
  else if 192 ≤ c ∧ c ≤ 222 ∧ c ≠ 215 then c + 32
  else c

/-- `string.indexOf(":")` (code point 58), as an option. -/
def idxOf58 : List Nat → Option Nat
  | [] => none
  | c :: rest => if c = 58 then some 0 else (idxOf58 rest).map (· + 1)

/-- The token character class of `validateHeader`: the RFC token
punctuation (codes 33, 35-39, 42, 43, 45, 46, 94-96, 124, 126) plus
digits and letters. -/
def isTokenCode (c : Nat) : Bool :=
  c == 33 || c == 35 || c == 36 || c == 37 || c == 38 || c == 39 ||
  c == 42 || c == 43 || c == 45 || c == 46 ||
  (Nat.ble 48 c && Nat.ble c 57) || (Nat.ble 65 c && Nat.ble c 90) ||
  c == 94 || c == 95 || c == 96 || (Nat.ble 97 c && Nat.ble c 122) ||
  c == 124 || c == 126

/-- The value character class of `validateHeader`: tab, printable ASCII,
or `\x80`–`\xFF`. -/
def isValueCode (c : Nat) : Bool :=
  c == 9 || (Nat.ble 32 c && Nat.ble c 126) || (Nat.ble 128 c && Nat.ble c 255)

/-- `validateHeader` (identical in both parser variants): ascii-decode the
line, find the first colon, trim name and value, then check the name
against the token class, the value against the printable class, and run
the remaining explicit control-character loop. -/
def validateHeader (header : List Nat) : Bool :=
  let s := toCodes header
  match idxOf58 s with
  | none => false
  | some ci =>
    let name := trimCodes (s.take ci)
    let value := trimCodes (s.drop (ci + 1))
    !name.isEmpty && name.all isTokenCode &&
      value.all isValueCode &&
      value.all (fun c => !(Nat.blt c 32 && !(c == 9)))

/-- A parsed request: method, target, version (all as the ascii-decoded
token code lists) plus the raw header line buffers, in order. -/
structure HTTPReq where
  method : List Nat
  uri : List Nat
  version : List Nat
  headers : List (List Nat)
deriving DecidableEq

/-- Error value standing for the uncaught TypeError the JavaScript code
raises when `splitLines` yields no lines at all (`lines[0]` is then
`undefined`); both parser variants fail identically there, and the
connection engine never reaches this case (its blocks end in CR LF CR
LF and are nonempty). -/
def jsUndefinedLine : HTTPError := ⟨0, codes "TypeError: no request line"⟩

/-- Header collection of `http-parser.ts`: stop at the first empty line,
reject the first invalid line with a 400 that echoes it. -/
def collectHeadersTS : List (List Nat) → Except HTTPError (List (List Nat))
  | [] => .ok []
  | l :: ls =>
    if l = [] then .ok []
    else if validateHeader l = false then
      .error ⟨400, codes "Bad Request: Invalid header format - " ++ toCodes l⟩
    else
      match collectHeadersTS ls with
      | .error e => .error e
      | .ok hs => .ok (l :: hs)

/-- Header collection of the compiled `dist/buffer-utils.js` parser: every
line after the request line is validated; there is no empty-line break. -/
def collectHeadersDist : List (List Nat) → Except HTTPError (List (List Nat))
  | [] => .ok []
  | l :: ls =>
    if validateHeader l = false then
      .error ⟨400, codes "Bad Request: Invalid header format - " ++ toCodes l⟩
    else
      match collectHeadersDist ls with
      | .error e => .error e
      | .ok hs => .ok (l :: hs)

/-- Line-list part of the `http-parser.ts` request parser: parse line 0 as
the request line, collect headers up to the first empty line. -/
def parseHTTPReqLines : List (List Nat) → Except HTTPError HTTPReq
  | [] => .error jsUndefinedLine
  | l0 :: rest =>
    match parseRequestLine l0 with
    | .error e => .error e
    | .ok (m, u, v) =>
      match collectHeadersTS rest with
      | .error e => .error e
      | .ok hs => .ok ⟨m, u, v, hs⟩

/-- `parseHTTPReq` of `http-parser.ts`. -/
def parseHTTPReq (data : List Nat) : Except HTTPError HTTPReq :=
  parseHTTPReqLines (splitLines data)

/-- Line-list part of the compiled `dist/buffer-utils.js` request parser:
same request line handling, but every remaining line is validated as a
header (the trailing `console.assert` has no observable effect). -/
def parseHTTPReqLinesDist : List (List Nat) → Except HTTPError HTTPReq
  | [] => .error jsUndefinedLine
  | l0 :: rest =>
    match parseRequestLine l0 with
    | .error e => .error e
    | .ok (m, u, v) =>
      match collectHeadersDist rest with
      | .error e => .error e
      | .ok hs => .ok ⟨m, u, v, hs⟩

/-- `parseHTTPReq` of the compiled `dist/buffer-utils.js` module. -/
def parseHTTPReqDist (data : List Nat) : Except HTTPError HTTPReq :=
  parseHTTPReqLinesDist (splitLines data)

/-- `kMaxHeaderSize = 1024 * 8`. -/
def kMaxHeaderSize : Int := 1024 * 8

/-- `cutMessage` of `http-parser.ts`: search the valid region for the
terminator; if absent fail with 413 only when the logical length
exceeds `kMaxHeaderSize`, otherwise report "need more data" (`none`);
if present parse the block up to and including the terminator and pop
it from the buffer. -/
def cutMessage (buf : DynBuf) :
    Except HTTPError (Option (HTTPReq × DynBuf)) :=
  match findTerm (validRegion buf) with
  | none =>
    if kMaxHeaderSize < buf.length then
      .error ⟨413, codes "Request Entity Too Large"⟩
    else .ok none
  | some idx =>
    match parseHTTPReq (buf.data.take (idx + 4)) with
    | .error e => .error e
    | .ok msg => .ok (some (msg, bufPop buf (idx + 4)))

/-- The connection-persistence test of `serverClient`: the strict string
comparison of `msg.version` against the two-character version `1.0`. -/
def closesAfterResponse (version : List Nat) : Bool :=
  version == codes "1.0"

/-- `fieldGet(headers, key)`: scan the header lines in order; for each,
Latin-1 decode, find the first colon (which must not be at position 0),
trim and lowercase the name, and on a match return the trimmed value. -/
def fieldGet : List (List Nat) → List Nat → Option (List Nat)
  | [], _ => none
  | h :: t, key =>
    match idxOf58 h with
    | some ci =>
      if 0 < ci ∧ (trimCodes (h.take ci)).map lowerCode = key.map lowerCode
      then some (trimCodes (h.drop (ci + 1)))
      else fieldGet t key
    | none => fieldGet t key

/-- Value of a digit string (most significant first). -/
def digitsToNat : List Nat → Nat → Nat
  | [], acc => acc
  | d :: ds, acc => digitsToNat ds (acc * 10 + (d - 48))

/-- `parseDec(str)`, i.e. `parseInt(str, 10)`: skip leading whitespace,
take an optional sign, then the longest run of decimal digits; with no
digit the result is NaN (`none`), otherwise the signed value.  Note
that trailing garbage is ignored, exactly as in JavaScript. -/
def parseDec (cs0 : List Nat) : Option Int :=
  let cs := cs0.dropWhile isWsCode
  match cs with
  | 45 :: r =>
    let ds := r.takeWhile isDigitCode
    if ds.isEmpty then none else some (-(digitsToNat ds 0 : Int))
  | 43 :: r =>
    let ds := r.takeWhile isDigitCode
    if ds.isEmpty then none else some ((digitsToNat ds 0 : Int))
  | r =>
    let ds := r.takeWhile isDigitCode
    if ds.isEmpty then none else some ((digitsToNat ds 0 : Int))

/-- The chunked test of `readerFromReq`: the Transfer-Encoding value, when
present, compared byte-for-byte against `chunked`. -/
def isChunked (req : HTTPReq) : Bool :=
  match fieldGet req.headers (codes "Transfer-Encoding") with
  | some v => v == codes "chunked"
  | none => false

/-- The `bodyLen` variable of `readerFromReq` after the Content-Length
lookup: `-1` when the header is absent, the `parseDec` result when it
is present (`none` playing the role of NaN, the 400 path). -/
def bodyLenOf (req : HTTPReq) : Option Int :=
  match fieldGet req.headers (codes "Content-Length") with
  | none => some (-1)
  | some s => parseDec s

/-- The body reader the factory selects: the only implemented variant is
the connection-bounded reader with its initial byte budget. -/
inductive BodyKind where
  | connLength (n : Int)
deriving DecidableEq

/-- `readerFromReq(conn, buf, req)`, up to the reader it returns: parse the
Content-Length (NaN gives 400), forbid a positive length or a chunked
marker for GET and HEAD, force the length to 0 for those methods, and
fall through to the 501 extension points otherwise. -/
def readerFromReq (req : HTTPReq) : Except HTTPError BodyKind :=
  match bodyLenOf req with
  | none => .error ⟨400, codes "bad Content-Length."⟩
  | some bl =>
    let bodyAllowed : Bool :=
      !(req.method == codes "GET" || req.method == codes "HEAD")
    let chunked := isChunked req
    if bodyAllowed = false ∧ (0 < bl ∨ chunked = true) then
      .error ⟨400, codes "HTTP body not allowed."⟩
    else
      let bl2 := if bodyAllowed = false then 0 else bl
      if 0 ≤ bl2 then .ok (.connLength bl2)
      else if chunked = true then
        .error ⟨501, codes "TODO: chunked encoding"⟩
      else .error ⟨501, codes "TODO: read until EOF"⟩

/-- One transport read (`soRead`), with the connection modelled as the
list of chunks successive reads deliver; an exhausted list behaves as
an ended transport and yields the empty end-of-stream chunk. -/
def soRead : List (List Nat) → List Nat × List (List Nat)
  | [] => ([], [])
  | c :: cs => (c, cs)

/-- One `read()` of the reader built by `readerFromConnLength`, as a step
function from `(conn, buf, remain)`: a zero budget short-circuits to an
empty result; an empty buffer first takes one transport read and pushes
it (a zero-length chunk is the fatal truncated-body error — the source
pushes before raising, which the pure model need not order since the
push of an empty chunk changes nothing and the error discards the
state); then `min(buf.length, remain)` bytes of the buffer are
returned, popped, and deducted from the budget. -/
def connLengthRead (conn : List (List Nat)) (buf : DynBuf) (remain : Nat) :
    Except (List Nat) (List Nat × List (List Nat) × DynBuf × Nat) :=
  if remain = 0 then .ok ([], conn, buf, remain)
  else if buf.length = 0 then
    if (soRead conn).1 = [] then .error (codes "Unexpected EOF from HTTP body")
    else
      .ok ((bufpush buf (soRead conn).1).data.take
             (min (bufpush buf (soRead conn).1).length.toNat remain),
           (soRead conn).2,
           bufPop (bufpush buf (soRead conn).1)
             (min (bufpush buf (soRead conn).1).length.toNat remain),
           remain - min (bufpush buf (soRead conn).1).length.toNat remain)
  else
    .ok (buf.data.take (min buf.length.toNat remain), conn,
         bufPop buf (min buf.length.toNat remain),
         remain - min buf.length.toNat remain)

/-- One `read()` of the reader built by `readerFromMemory`, as a step
function on the served flag: the first read returns the whole payload
and latches the flag, every later read returns the empty chunk. -/
def memoryRead (data : List Nat) (done : Bool) : List Nat × Bool :=
  if done then ([], true) else (data, true)

/-- Iterate `memoryRead` a given number of times, collecting the chunks
each read returns and the final flag. -/
def memReads (data : List Nat) : Nat → Bool → List (List Nat) × Bool
  | 0, done => ([], done)
  | Nat.succ k, done =>
    let r := memoryRead data done
    let rest := memReads data k r.2
    (r.1 :: rest.1, rest.2)

/-- Iterate `connLengthRead` a given number of times, collecting the chunks
and the final state; `none` when some read fails. -/
def connReads :
    Nat → List (List Nat) → DynBuf → Nat →
    Option (List (List Nat) × (List (List Nat) × DynBuf × Nat))
  | 0, conn, buf, remain => some ([], conn, buf, remain)
  | Nat.succ k, conn, buf, remain =>
    match connLengthRead conn buf remain with
    | .error _ => none
    | .ok (out, conn2, buf2, rem2) =>
      (connReads k conn2 buf2 rem2).map (fun r => (out :: r.1, r.2))

/-- Decimal code points of a natural number, as JavaScript template
interpolation renders it. -/
def natCodes (n : Nat) : List Nat :=
  codes (toString n)

/-- Code points of an integer rendered by template interpolation. -/
def intCodes (i : Int) : List Nat :=
  if i < 0 then 45 :: natCodes (-i).toNat else natCodes i.toNat

/-- The CR LF pair used by `lines.join("\r\n")`. -/
def crlf : List Nat := [13, 10]

/-- `lines.join("\r\n")`. -/
def joinCRLF : List (List Nat) → List Nat
  | [] => []
  | [l] => l
  | l :: ls => l ++ crlf ++ joinCRLF ls

/-- `encodeHTTPResp(resp)`: the status line, then each header line, then a
single empty element, all joined with CR LF.  (The join gives the empty
final element no separator of its own, so the encoded block ends with
one CR LF, not with a blank line.) -/
def encodeHTTPResp (code : Nat) (headers : List (List Nat)) : List Nat :=
  joinCRLF ((codes "HTTP/1.1 " ++ natCodes code ++ codes " OK") :: headers ++ [[]])

/-- Concatenate the chunks a body reader yields until the first empty
chunk, as the write loop of `writeHTTPResp` consumes them. -/
def drainChunks : List (List Nat) → List Nat
  | [] => []
  | c :: cs => if c = [] then [] else c ++ drainChunks cs

/-- `writeHTTPResp(conn, resp)` as the byte stream it writes: reject an
unknown body length, append the computed Content-Length header to the
handler headers, write the encoded header block, then stream the body
chunks until the first empty read. -/
def writeHTTPResp (code : Nat) (headers : List (List Nat)) (bodyLen : Int)
    (chunks : List (List Nat)) : Except (List Nat) (List Nat) :=
  if bodyLen < 0 then .error (codes "TODO: chunked encoding")
  else
    .ok (encodeHTTPResp code
          (headers ++ [codes "Content-Length: " ++ intCodes bodyLen]) ++
        drainChunks chunks)

/-- C1: the connection engine never recognises an HTTP/1.0 request as one
that closes the connection.  On the scenario-3 header block the parser
succeeds and stores the full version token `HTTP/1.0` (the third
space-separated token of the request line), and the close test of
`serverClient`, which compares the stored version against the
two-character string `1.0`, is false — so after the response the loop
continues to parse further requests instead of returning. -/
theorem http10_close_check_never_fires :
    parseHTTPReq (codes "POST /echo HTTP/1.0\r\nContent-Length: 3\r\n\r\n")
      = .ok ⟨codes "POST", codes "/echo", codes "HTTP/1.0",
             [codes "Content-Length: 3"]⟩ ∧
    closesAfterResponse (codes "HTTP/1.0") = false := by
  constructor
  · rfl
  · rfl

/-- C9: serialising the default 200 response with the 13-byte body
`hello world.` + LF yields a stream whose Content-Length value is 13
(the body length) and whose body bytes are exactly the body — but the
header block is terminated by a single CR LF after the appended
Content-Length header: the stream contains no CR LF CR LF blank line
at all, because `encodeHTTPResp` joins the final empty element without
a separator of its own. -/
theorem writeHTTPResp_missing_blank_line :
    writeHTTPResp 200 [codes "Server: my_first_http_server"] 13
        [codes "hello world.\n"]
      = .ok (codes
          "HTTP/1.1 200 OK\r\nServer: my_first_http_server\r\nContent-Length: 13\r\nhello world.\n") ∧
    findTerm (codes
        "HTTP/1.1 200 OK\r\nServer: my_first_http_server\r\nContent-Length: 13\r\nhello world.\n")
      = none ∧
    (codes "hello world.\n").length = 13 := by
  refine ⟨rfl, by decide, rfl⟩

/-- C2 counterexample: a POST request declaring `Content-Length: -1` does
not fail with the 400 bad-length condition.  The value parses to the
integer `-1` (JavaScript `parseInt` accepts a sign, so the NaN check
does not fire) and the factory falls through to the 501
read-until-EOF extension point. -/
theorem contentLengthMinusOne_gives_501 :
    readerFromReq ⟨codes "POST", codes "/echo", codes "HTTP/1.1",
        [codes "Content-Length: -1"]⟩
      = .error ⟨501, codes "TODO: read until EOF"⟩ ∧
    bodyLenOf ⟨codes "POST", codes "/echo", codes "HTTP/1.1",
        [codes "Content-Length: -1"]⟩ = some (-1) := by
  exact ⟨rfl, rfl⟩

/-- C4 counterexample: on the standard minimal header block
`GET / HTTP/1.1` CR LF CR LF — whose line list ends with the blank line
before the terminator — the `http-parser.ts` implementation succeeds
with no headers, while the compiled `dist` implementation validates the
trailing empty line as a header and fails with 400. -/
theorem parseHTTPReq_variants_disagree :
    parseHTTPReq (codes "GET / HTTP/1.1\r\n\r\n")
      = .ok ⟨codes "GET", codes "/", codes "HTTP/1.1", []⟩ ∧
    parseHTTPReqDist (codes "GET / HTTP/1.1\r\n\r\n")
      = .error ⟨400, codes "Bad Request: Invalid header format - "⟩ := by
  exact ⟨rfl, rfl⟩

/-- C6 counterexample: a GET request declaring the nonzero length `-1` is
not rejected with the 400 body-not-allowed condition; the guard only
tests for a strictly positive length, so the factory silently forces
the length to 0 and returns an empty connection-bounded reader. -/
theorem get_negative_length_not_rejected :
    readerFromReq ⟨codes "GET", codes "/", codes "HTTP/1.1",
        [codes "Content-Length: -1"]⟩
      = .ok (.connLength 0) ∧
    bodyLenOf ⟨codes "GET", codes "/", codes "HTTP/1.1",
        [codes "Content-Length: -1"]⟩ = some (-1) ∧
    (-1 : Int) ≠ 0 := by
  exact ⟨rfl, rfl, by decide⟩

/-- C8 counterexample: consuming 2 bytes from a buffer whose logical
length is 1 does not fail: `bufPop` completes normally, copies
nothing, and leaves the buffer with logical length `-1`. -/
theorem bufPop_overrun_completes :
    bufPop ⟨[97], 1⟩ 2 = ⟨[97], -1⟩ ∧ (bufPop ⟨[97], 1⟩ 2).length < 0 := by
  exact ⟨rfl, by decide⟩

/-- A byte other than CR never starts the terminator: the scan just moves
on. -/
theorem findTerm_cons_ne (b : Nat) (l : List Nat) (h : ¬ b = 13) :
    findTerm (b :: l) = (findTerm l).map (· + 1) := by
  simp [findTerm, h]

/-- A run of `a` bytes contains no CR LF CR LF terminator. -/
theorem findTerm_replicate_97 (n : Nat) :
    findTerm (List.replicate n 97) = none := by
  induction n with
  | zero => rfl
  | succ k ih =>
    rw [List.replicate_succ, findTerm_cons_ne 97 _ (by decide), ih]
    rfl

/-- The valid region of a buffer whose logical length equals its physical
size is the whole backing array. -/
theorem validRegion_eq_data (b : DynBuf) (h : b.length = (b.data.length : Int)) :
    validRegion b = b.data := by
  simp [validRegion, h]

/-- With no terminator in the valid region and a logical length within the
limit, `cutMessage` reports "need more data". -/
theorem cutMessage_none_aux (buf : DynBuf)
    (h : findTerm (validRegion buf) = none)
    (hl : ¬ kMaxHeaderSize < buf.length) : cutMessage buf = .ok none := by
  unfold cutMessage
  rw [h]
  exact if_neg hl

/-- With no terminator in the valid region and a logical length beyond the
limit, `cutMessage` raises the 413 condition. -/
theorem cutMessage_413_aux (buf : DynBuf)
    (h : findTerm (validRegion buf) = none)
    (hl : kMaxHeaderSize < buf.length) :
    cutMessage buf = .error ⟨413, codes "Request Entity Too Large"⟩ := by
  unfold cutMessage
  rw [h]
  exact if_pos hl

/-- The valid region of a terminator-free replicated buffer. -/
theorem findTerm_validRegion_replicate (n : Nat) :
    findTerm (validRegion ⟨List.replicate n 97, (n : Int)⟩) = none := by
  have hv : validRegion ⟨List.replicate n 97, (n : Int)⟩
      = List.replicate n 97 := by
    refine validRegion_eq_data _ ?_
    show ((n : Nat) : Int) = ((List.replicate n 97).length : Int)
    rw [List.length_replicate]
  rw [hv, findTerm_replicate_97]

/-- C3 counterexample: a buffer state holding exactly 8192 bytes with no
terminator does not trigger the 413 condition: `cutMessage` compares
with strict inequality and reports "need more data" instead. -/
theorem cutMessage_at_8192_needs_more :
    cutMessage ⟨List.replicate 8192 97, ((8192 : Nat) : Int)⟩ = .ok none :=
  cutMessage_none_aux _ (findTerm_validRegion_replicate 8192)
    (by unfold kMaxHeaderSize; norm_num)

/-- C3 amended: for every buffer state without the CR LF CR LF terminator
in its valid region, `cutMessage` fails with the 413 condition exactly
when the logical length strictly exceeds 8192 bytes; at 8192 bytes or
fewer it returns the "need more data" result without error. -/
theorem cutMessage_no_terminator (buf : DynBuf)
    (h : findTerm (validRegion buf) = none) :
    ((8192 : Int) < buf.length →
        cutMessage buf = .error ⟨413, codes "Request Entity Too Large"⟩) ∧
    (buf.length ≤ (8192 : Int) → cutMessage buf = .ok none) := by
  constructor
  · intro hl
    exact cutMessage_413_aux buf h (by unfold kMaxHeaderSize; omega)
  · intro hl
    exact cutMessage_none_aux buf h (by unfold kMaxHeaderSize; omega)

/-- Witness for the amended C3 theorem: one byte past the limit, a
terminator-free 8193-byte buffer is rejected with 413. -/
theorem cutMessage_no_terminator_witness :
    findTerm (validRegion ⟨List.replicate 8193 97, ((8193 : Nat) : Int)⟩) = none ∧
    cutMessage ⟨List.replicate 8193 97, ((8193 : Nat) : Int)⟩
      = .error ⟨413, codes "Request Entity Too Large"⟩ :=
  ⟨findTerm_validRegion_replicate 8193,
   (cutMessage_no_terminator _ (findTerm_validRegion_replicate 8193)).1
     (by norm_num)⟩

/-- On a line list with no empty line, the break of the TypeScript header
collector never fires, so the two collectors agree. -/
theorem collectHeaders_eq (ls : List (List Nat)) (h : ∀ l ∈ ls, l ≠ []) :
    collectHeadersTS ls = collectHeadersDist ls := by
  induction ls with
  | nil => rfl
  | cons l t ih =>
    have hl : l ≠ [] := h l (List.mem_cons_self l t)
    have ht : ∀ x ∈ t, x ≠ [] := fun x hx => h x (List.mem_cons_of_mem l hx)
    unfold collectHeadersTS collectHeadersDist
    rw [if_neg hl, ih ht]

/-- C4 amended: the two `parseHTTPReq` implementations agree on every
header block whose line list contains no empty line after the request
line.  The unrestricted equivalence of the original claim is false: on
a block that does end with the standard blank line the results can
differ — the counterexample block is parsed by the TypeScript version
and rejected with 400 by the compiled one.  (A block with an empty
line can still parse identically when an earlier check fails first,
which is why this theorem only restricts the domain.) -/
theorem parseHTTPReq_agree (data : List Nat)
    (h : ∀ l ∈ (splitLines data).tail, l ≠ []) :
    parseHTTPReq data = parseHTTPReqDist data := by
  unfold parseHTTPReq parseHTTPReqDist
  cases hs : splitLines data with
  | nil => rfl
  | cons l0 rest =>
    have hrest : ∀ l ∈ rest, l ≠ [] := by
      intro l hl
      exact h l (by rw [hs]; exact hl)
    simp only [parseHTTPReqLines, parseHTTPReqLinesDist]
    rw [collectHeaders_eq rest hrest]

/-- Witness for the amended C4 theorem: a nonstandard block with a header
line and no blank line is parsed identically by both implementations. -/
theorem parseHTTPReq_agree_witness :
    (∀ l ∈ (splitLines (codes "GET / HTTP/1.1\r\nHost: a\r\n")).tail, l ≠ []) ∧
    parseHTTPReq (codes "GET / HTTP/1.1\r\nHost: a\r\n")
      = parseHTTPReqDist (codes "GET / HTTP/1.1\r\nHost: a\r\n") :=
  ⟨by decide, parseHTTPReq_agree _ (by decide)⟩

/-- Evaluation of `parseRequestLine` when the split yields exactly three
parts: the four checks run in order. -/
theorem prl_eq_of_three (m u v line : List Nat)
    (hp : splitSp (toCodes line) = [m, u, v]) :
    parseRequestLine line =
      (if m = [] ∨ u = [] ∨ v = [] then
        .error ⟨400, codes "Missing request line components"⟩
      else if m ∉ validMethods then
        .error ⟨405, codes "Method Not Allowed: " ++ m⟩
      else if ¬ uriStartsSlash u = true then
        .error ⟨400, codes "Invalid URI format"⟩
      else if ¬ versionOk v = true then
        .error ⟨400, codes "Invalid HTTP version"⟩
      else .ok (m, u, v)) := by
  unfold parseRequestLine
  rw [hp]

/-- Evaluation of `parseRequestLine` when the split does not yield exactly
three parts: the generic 400 of the malformed request line. -/
theorem prl_eq_other (line : List Nat) (parts : List (List Nat))
    (hp : splitSp (toCodes line) = parts)
    (h : ∀ m u v, parts ≠ [m, u, v]) :
    parseRequestLine line
      = .error ⟨400, codes "Bad Request: Invalid request line format"⟩ := by
  unfold parseRequestLine
  rw [hp]
  match parts, h with
  | [], _ => rfl
  | [a], _ => rfl
  | [a, b], _ => rfl
  | [a, b, c], h => exact absurd rfl (h a b c)
  | a :: b :: c :: d :: t, _ => rfl

/-- C5: classification of every request line.  If the ascii-decoded line
does not split into exactly three nonempty space-separated tokens,
parsing fails with a 400 condition; with three tokens, an unknown
method gives 405, a target that does not start with a slash gives 400,
a version that does not match the HTTP pattern gives 400, and
otherwise parsing succeeds with the three tokens. -/
theorem parseRequestLine_taxonomy (line : List Nat) :
    (¬(∃ m u v, splitSp (toCodes line) = [m, u, v] ∧
          m ≠ [] ∧ u ≠ [] ∧ v ≠ []) →
        ∃ msg, parseRequestLine line = .error ⟨400, msg⟩) ∧
    (∀ m u v, splitSp (toCodes line) = [m, u, v] →
        m ≠ [] → u ≠ [] → v ≠ [] →
      (m ∉ validMethods →
          parseRequestLine line
            = .error ⟨405, codes "Method Not Allowed: " ++ m⟩) ∧
      (m ∈ validMethods → uriStartsSlash u = false →
          parseRequestLine line = .error ⟨400, codes "Invalid URI format"⟩) ∧
      (m ∈ validMethods → uriStartsSlash u = true → versionOk v = false →
          parseRequestLine line
            = .error ⟨400, codes "Invalid HTTP version"⟩) ∧
      (m ∈ validMethods → uriStartsSlash u = true → versionOk v = true →
          parseRequestLine line = .ok (m, u, v))) := by
  constructor
  · intro hno
    by_cases h3 : ∃ m u v, splitSp (toCodes line) = [m, u, v]
    · obtain ⟨m, u, v, hp⟩ := h3
      have he : m = [] ∨ u = [] ∨ v = [] := by
        by_contra hne
        push_neg at hne
        exact hno ⟨m, u, v, hp, hne.1, hne.2.1, hne.2.2⟩
      rw [prl_eq_of_three m u v line hp, if_pos he]
      exact ⟨_, rfl⟩
    · push_neg at h3
      exact ⟨_, prl_eq_other line _ rfl (fun m u v => h3 m u v)⟩
  · intro m u v hp hm hu hv
    have hne : ¬(m = [] ∨ u = [] ∨ v = []) := by
      push_neg
      exact ⟨hm, hu, hv⟩
    rw [prl_eq_of_three m u v line hp, if_neg hne]
    refine ⟨?_, ?_, ?_, ?_⟩
    · intro hnm
      rw [if_pos hnm]
    · intro hmem hsl
      rw [if_neg (not_not_intro hmem), if_pos (by simp [hsl])]
    · intro hmem hsl hvv
      rw [if_neg (not_not_intro hmem), if_neg (by simp [hsl]),
        if_pos (by simp [hvv])]
    · intro hmem hsl hvv
      rw [if_neg (not_not_intro hmem), if_neg (by simp [hsl]),
        if_neg (by simp [hvv])]

/-- Witness for the C5 taxonomy: the scenario-6 request line with the
unrecognised method FOO is rejected with 405. -/
theorem parseRequestLine_taxonomy_witness :
    splitSp (toCodes (codes "FOO / HTTP/1.1"))
      = [codes "FOO", codes "/", codes "HTTP/1.1"] ∧
    parseRequestLine (codes "FOO / HTTP/1.1")
      = .error ⟨405, codes "Method Not Allowed: " ++ codes "FOO"⟩ :=
  ⟨by decide,
   (((parseRequestLine_taxonomy (codes "FOO / HTTP/1.1")).2
       (codes "FOO") (codes "/") (codes "HTTP/1.1")
       (by decide) (by decide) (by decide) (by decide)).1 (by decide))⟩

/-- C2 amended: a Content-Length value with no leading digits at all fails
to parse (`parseInt` yields NaN) and the factory raises the 400
bad-length condition; a syntactically signed number such as `-1`
instead parses successfully and bypasses this check (see the
counterexample, where it reaches the 501 read-until-EOF path). -/
theorem readerFromReq_nan_gives_400 (req : HTTPReq) (s : List Nat)
    (h1 : fieldGet req.headers (codes "Content-Length") = some s)
    (h2 : parseDec s = none) :
    readerFromReq req = .error ⟨400, codes "bad Content-Length."⟩ := by
  have hb : bodyLenOf req = none := by
    unfold bodyLenOf
    rw [h1]
    exact h2
  unfold readerFromReq
  rw [hb]

/-- Witness for the amended C2 theorem: a non-numeric Content-Length value
is rejected with the 400 bad-length condition. -/
theorem readerFromReq_nan_gives_400_witness :
    fieldGet [codes "Content-Length: abc"] (codes "Content-Length")
      = some (codes "abc") ∧
    parseDec (codes "abc") = none ∧
    readerFromReq ⟨codes "POST", codes "/", codes "HTTP/1.1",
        [codes "Content-Length: abc"]⟩
      = .error ⟨400, codes "bad Content-Length."⟩ :=
  ⟨by decide, by decide,
   readerFromReq_nan_gives_400 _ (codes "abc") (by decide) (by decide)⟩

/-- C6 amended: for a GET or HEAD request whose Content-Length (when
present) parses to a value `v`, the factory raises the 400
body-not-allowed condition exactly when `v` is strictly positive or a
chunked marker is present — a nonzero negative declared length slips
through the strict-positivity guard — and otherwise forces the body
length to 0 and returns a reader of length 0; moreover a parsed length
of 0 without a chunked marker is accepted with a length-0 reader for
every method. -/
theorem readerFromReq_get_head (req : HTTPReq) (v : Int)
    (hv : bodyLenOf req = some v) :
    ((req.method = codes "GET" ∨ req.method = codes "HEAD") →
      ((0 < v ∨ isChunked req = true) →
          readerFromReq req = .error ⟨400, codes "HTTP body not allowed."⟩) ∧
      (¬(0 < v ∨ isChunked req = true) →
          readerFromReq req = .ok (.connLength 0))) ∧
    (v = 0 → isChunked req = false → readerFromReq req = .ok (.connLength 0)) := by
  constructor
  · intro hm
    have hba : (req.method == codes "GET" || req.method == codes "HEAD") = true := by
      rcases hm with h | h <;> simp [h]
    constructor
    · intro hcond
      unfold readerFromReq
      rw [hv]
      simp only [hba, Bool.not_true]
      rw [if_pos ⟨trivial, hcond⟩]
    · intro hcond
      unfold readerFromReq
      rw [hv]
      simp only [hba, Bool.not_true]
      rw [if_neg (fun hc => hcond hc.2)]
      simp only [if_true]
      rw [if_pos (le_refl 0)]
  · intro h0 hc
    subst h0
    unfold readerFromReq
    rw [hv]
    cases hb : (req.method == codes "GET" || req.method == codes "HEAD") <;>
      simp [hb, hc]

/-- Witness for the amended C6 theorem: a GET request with no length header
at all (the parsed length defaults to `-1`) gets the empty reader. -/
theorem readerFromReq_get_head_witness :
    bodyLenOf ⟨codes "GET", codes "/", codes "HTTP/1.1", []⟩ = some (-1) ∧
    readerFromReq ⟨codes "GET", codes "/", codes "HTTP/1.1", []⟩
      = .ok (.connLength 0) :=
  ⟨by decide,
   ((readerFromReq_get_head _ (-1) (by decide)).1 (Or.inl rfl)).2 (by decide)⟩

/-- Popping `n` bytes of a well-formed buffer drops exactly the first `n`
bytes of the valid region. -/
theorem validRegion_bufPop (b : DynBuf) (n : Nat) (hwf : b.wf)
    (hn : (n : Int) ≤ b.length) :
    validRegion (bufPop b n) = (validRegion b).drop n := by
  obtain ⟨h0, hle⟩ := hwf
  have hnL : n ≤ b.length.toNat := by omega
  have hL : b.length.toNat ≤ b.data.length := by omega
  have hlen : ((b.data.take b.length.toNat).drop n).length
      = b.length.toNat - n := by
    simp [List.length_drop, List.length_take]
    omega
  have htn : (b.length - (n : Int)).toNat = b.length.toNat - n := by omega
  unfold validRegion bufPop copyWithinZero
  simp only [htn]
  exact List.take_left' hlen

/-- Pushing onto a buffer makes the valid region the whole concatenation
of the previous backing array with the new chunk. -/
theorem validRegion_bufpush (b : DynBuf) (d : List Nat) :
    validRegion (bufpush b d) = b.data ++ d := by
  unfold validRegion bufpush
  simp only [Int.toNat_natCast]
  rw [← List.length_append, List.take_length]

/-- A pushed buffer is always well-formed: its logical length is reset to
its physical size. -/
theorem bufpush_wf (b : DynBuf) (d : List Nat) : (bufpush b d).wf := by
  unfold bufpush DynBuf.wf
  constructor
  · exact Int.natCast_nonneg _
  · simp [List.length_append]

/-- The logical length of a pushed buffer, as a natural number, is the
length of the concatenation. -/
theorem bufpush_length_toNat (b : DynBuf) (d : List Nat) :
    (bufpush b d).length.toNat = (b.data ++ d).length := by
  simp [bufpush, List.length_append]
  omega

/-- C7: one step of the connection-bounded reader, on every well-formed
buffer state.  An exhausted budget returns the empty chunk with the
state untouched; with an empty buffer exactly one transport read is
taken and pushed, a zero-length chunk failing with the
unexpected-end-of-stream condition; otherwise the read returns exactly
`min(bufferedBytes, remaining)` bytes — the prefix of the buffered
bytes — deducts that amount from the budget, and consumes it from the
shared buffer. -/
theorem connLengthRead_step (conn : List (List Nat)) (buf : DynBuf)
    (remain : Nat) (hwf : buf.wf) :
    (remain = 0 → connLengthRead conn buf remain = .ok ([], conn, buf, 0)) ∧
    (remain ≠ 0 → buf.length = 0 → (soRead conn).1 = [] →
        connLengthRead conn buf remain
          = .error (codes "Unexpected EOF from HTTP body")) ∧
    (remain ≠ 0 → buf.length = 0 → (soRead conn).1 ≠ [] →
        ∃ out buf2,
          connLengthRead conn buf remain
            = .ok (out, (soRead conn).2, buf2, remain - out.length) ∧
          out.length = min (buf.data ++ (soRead conn).1).length remain ∧
          out = (buf.data ++ (soRead conn).1).take out.length ∧
          validRegion buf2 = (buf.data ++ (soRead conn).1).drop out.length) ∧
    (remain ≠ 0 → ¬ buf.length = 0 →
        ∃ out buf2,
          connLengthRead conn buf remain
            = .ok (out, conn, buf2, remain - out.length) ∧
          out.length = min buf.length.toNat remain ∧
          out = (validRegion buf).take out.length ∧
          validRegion buf2 = (validRegion buf).drop out.length) := by
  refine ⟨?_, ?_, ?_, ?_⟩
  · intro h0
    subst h0
    unfold connLengthRead
    rw [if_pos rfl]
  · intro h0 hb hd
    unfold connLengthRead
    rw [if_neg h0, if_pos hb, if_pos hd]
  · intro h0 hb hd
    have hlt : (bufpush buf (soRead conn).1).length.toNat
        = (buf.data ++ (soRead conn).1).length :=
      bufpush_length_toNat buf _
    have hdl : (bufpush buf (soRead conn).1).data
        = buf.data ++ (soRead conn).1 := rfl
    have hol : ((bufpush buf (soRead conn).1).data.take
        (min (bufpush buf (soRead conn).1).length.toNat remain)).length
        = min (bufpush buf (soRead conn).1).length.toNat remain := by
      rw [List.length_take, hdl, ← hlt]
      exact min_eq_left (min_le_left _ _)
    refine ⟨(bufpush buf (soRead conn).1).data.take
        (min (bufpush buf (soRead conn).1).length.toNat remain),
      bufPop (bufpush buf (soRead conn).1)
        (min (bufpush buf (soRead conn).1).length.toNat remain),
      ?_, ?_, ?_, ?_⟩
    · unfold connLengthRead
      rw [if_neg h0, if_pos hb, if_neg hd, hol]
    · rw [hol, hlt]
    · rw [hol, hdl]
    · have hle : ((min (bufpush buf (soRead conn).1).length.toNat remain : Nat) : Int)
          ≤ (bufpush buf (soRead conn).1).length := by
        have h1 : min (bufpush buf (soRead conn).1).length.toNat remain
            ≤ (bufpush buf (soRead conn).1).length.toNat := min_le_left _ _
        have h2 : (0 : Int) ≤ (bufpush buf (soRead conn).1).length :=
          (bufpush_wf _ _).1
        omega
      rw [hol, validRegion_bufPop _ _ (bufpush_wf _ _) hle, validRegion_bufpush]
  · intro h0 hb
    obtain ⟨hw0, hwle⟩ := hwf
    have hL : buf.length.toNat ≤ buf.data.length := by omega
    have hol : (buf.data.take (min buf.length.toNat remain)).length
        = min buf.length.toNat remain := by
      rw [List.length_take]
      exact min_eq_left (le_trans (min_le_left _ _) hL)
    refine ⟨buf.data.take (min buf.length.toNat remain),
      bufPop buf (min buf.length.toNat remain), ?_, ?_, ?_, ?_⟩
    · unfold connLengthRead
      rw [if_neg h0, if_neg hb, hol]
    · rw [hol]
    · rw [hol]
      unfold validRegion
      rw [List.take_take, min_eq_left (min_le_left _ _)]
    · rw [hol]
      rw [validRegion_bufPop _ _ ⟨hw0, hwle⟩ (by omega)]

/-- Witness for the C7 step theorem: a read with budget 3 on an empty
well-formed buffer, with the transport about to deliver two bytes. -/
theorem connLengthRead_step_witness :
    (⟨[], 0⟩ : DynBuf).wf ∧
    (∃ out buf2,
      connLengthRead [[8, 9]] ⟨[], 0⟩ 3
        = .ok (out, (soRead [[8, 9]]).2, buf2, 3 - out.length) ∧
      out.length = min ((⟨[], 0⟩ : DynBuf).data ++ (soRead [[8, 9]]).1).length 3 ∧
      out = ((⟨[], 0⟩ : DynBuf).data ++ (soRead [[8, 9]]).1).take out.length ∧
      validRegion buf2
        = ((⟨[], 0⟩ : DynBuf).data ++ (soRead [[8, 9]]).1).drop out.length) :=
  ⟨by decide,
   (connLengthRead_step [[8, 9]] ⟨[], 0⟩ 3 (by decide)).2.2.1
     (by decide) (by decide) (by decide)⟩

/-- C8 amended: on a well-formed buffer, consuming at most the logical
length discards exactly the first `n` bytes of the valid region (the
remainder shifts to offset 0) and decrements the logical length by
`n`; consuming more than the logical length, however, does not fail:
the copy moves nothing, the backing array is unchanged, and the
logical length is left negative. -/
theorem bufPop_cases (buf : DynBuf) (n : Nat) (hwf : buf.wf) :
    ((n : Int) ≤ buf.length →
        validRegion (bufPop buf n) = (validRegion buf).drop n ∧
        (bufPop buf n).length = buf.length - n) ∧
    (buf.length < (n : Int) →
        (bufPop buf n).data = buf.data ∧
        (bufPop buf n).length = buf.length - n ∧
        (bufPop buf n).length < 0) := by
  obtain ⟨hw0, hwle⟩ := hwf
  constructor
  · intro hn
    exact ⟨validRegion_bufPop buf n ⟨hw0, hwle⟩ hn, rfl⟩
  · intro hn
    have hLdl : buf.length.toNat ≤ buf.data.length := by omega
    have hseg : (buf.data.take buf.length.toNat).drop n = [] := by
      apply List.drop_eq_nil_of_le
      rw [List.length_take, min_eq_left hLdl]
      omega
    refine ⟨?_, rfl, by unfold bufPop; simp; omega⟩
    unfold bufPop copyWithinZero
    simp only [hseg]
    simp

/-- Witness for the amended C8 theorem: consuming 2 of 3 buffered bytes
shifts the last byte down and leaves length 1. -/
theorem bufPop_cases_witness :
    (⟨[1, 2, 3], 3⟩ : DynBuf).wf ∧
    (validRegion (bufPop ⟨[1, 2, 3], 3⟩ 2)
        = (validRegion ⟨[1, 2, 3], 3⟩).drop 2 ∧
      (bufPop ⟨[1, 2, 3], 3⟩ 2).length
        = (⟨[1, 2, 3], 3⟩ : DynBuf).length - (2 : Nat)) :=
  ⟨by decide, (bufPop_cases _ 2 (by decide)).1 (by decide)⟩

/-- C10: reading past end-of-body is idempotent on both reader variants.
A memory reader that has already served its payload answers every one
of `k` further reads with the empty chunk and stays in the served
state; a freshly served memory reader behaves the same after its first
read; and the connection-bounded reader with exhausted budget answers
every one of `k` reads with the empty chunk, leaving the transport,
the shared buffer, and the zero budget untouched. -/
theorem readers_idempotent_after_exhaustion :
    (∀ data k, memReads data k true = (List.replicate k [], true)) ∧
    (∀ data k, memReads data (k + 1) false
        = (data :: List.replicate k [], true)) ∧
    (∀ conn buf k, connReads k conn buf 0
        = some (List.replicate k [], conn, buf, 0)) := by
  have hmem : ∀ (data : List Nat) (k : Nat),
      memReads data k true = (List.replicate k [], true) := by
    intro data k
    induction k with
    | zero => rfl
    | succ j ih =>
      show ((memoryRead data true).1 :: (memReads data j true).1,
          (memReads data j true).2) = (List.replicate (j + 1) [], true)
      rw [ih]
      rfl
  have hconn : ∀ (conn : List (List Nat)) (buf : DynBuf) (k : Nat),
      connReads k conn buf 0 = some (List.replicate k [], conn, buf, 0) := by
    intro conn buf k
    induction k with
    | zero => rfl
    | succ j ih =>
      show Option.map (fun r => ([] :: r.1, r.2)) (connReads j conn buf 0)
          = some (List.replicate (j + 1) [], conn, buf, 0)
      rw [ih]
      rfl
  refine ⟨hmem, ?_, hconn⟩
  intro data k
  show ((memoryRead data false).1 :: (memReads data k true).1,
      (memReads data k true).2) = (data :: List.replicate k [], true)
  rw [hmem data k]
  rfl

/-- Witness for the C10 theorem: two reads past exhaustion of a served
memory reader both come back empty. -/
theorem readers_idempotent_witness :
    memReads [5, 6] 2 true = (List.replicate 2 [], true) :=
  readers_idempotent_after_exhaustion.1 [5, 6] 2
